import Mathlib

/-!
Verification of the race-results scraping notebook
(`Analyzing_Race_Results_Part_1_Web_Scraping`).

The notebook is a straight-line Python 2 pipeline:
fetch HTML → extract table rows → clean rows → build a DataFrame tagged
with the year → parse the `Total Time` column → coerce integer columns →
sort by time → serialize.  Below we give a shallow embedding of each
stage as executable Lean definitions, translated directly from the
notebook's code cells, and prove the specified properties about them.
-/

namespace RaceResults

/-- A table row: the ordered list of cell texts, as produced by
`[cell_value.text.strip() for cell_value in row.find_all('td')]`. -/
abbrev Row := List String

/-- Error taxonomy of the pipeline.  The Python code raises `IndexError`
(no 9-column row), `ValueError` from `strptime` (bad time string),
`ValueError` from `astype(int)` (non-numeric content) and `KeyError`
(missing column); the spec names these `HeaderNotFoundError`,
`TimeParseError`, `TypeCoercionError` and a structural failure. -/
inductive PipelineError where
  | headerNotFound
  | timeParse
  | typeCoercion
  | keyError
  deriving DecidableEq, Repr

/-- Decidable equality of pipeline results, for evaluating the embedded
program on concrete inputs. -/
instance {ε α : Type} [DecidableEq ε] [DecidableEq α] : DecidableEq (Except ε α) := fun x y =>
  match x, y with
  | .error e1, .error e2 =>
      match decEq e1 e2 with
      | isTrue h => isTrue (by rw [h])
      | isFalse h => isFalse (fun hc => h (by cases hc; rfl))
  | .error _, .ok _ => isFalse (fun hc => Except.noConfusion hc)
  | .ok _, .error _ => isFalse (fun hc => Except.noConfusion hc)
  | .ok a1, .ok a2 =>
      match decEq a1 a2 with
      | isTrue h => isTrue (by rw [h])
      | isFalse h => isFalse (fun hc => h (by cases hc; rfl))

/-- Embedding of `[row for row in raw_data if len(row) == 9][0]`:
the first row whose length is 9, or a failure when there is none
(Python raises `IndexError` on the empty list). -/
def findHeader (rows : List Row) : Option Row :=
  (rows.filter (fun r => r.length == 9)).head?

/-- Embedding of the cleaning loop

```
cleaned_data = []
for row in raw_data:
    if row <> header and len(row) == 9:
        cleaned_data.append(row)
```

as a left fold appending to an accumulator, exactly as the source does. -/
def cleanLoop (header : Row) (rows : List Row) : List Row :=
  rows.foldl (fun acc row => if row ≠ header ∧ row.length = 9 then acc ++ [row] else acc) []

/-- Embedding of `parse_results_table` after the raw rows have been
extracted: pick the header, run the cleaning loop, and return the pair
`(header, cleaned_data)` standing for
`pd.DataFrame(data = cleaned_data, columns = header)`. -/
def parse_results_table (rows : List Row) : Except PipelineError (Row × List Row) :=
  match findHeader rows with
  | none => .error .headerNotFound
  | some header => .ok (header, cleanLoop header rows)

/-- ASCII digit test on a character: codes 48 (`0`) to 57 (`9`). -/
def isDigitChar (c : Char) : Bool := 48 ≤ c.toNat && c.toNat ≤ 57

/-- Numeric value of an ASCII digit character. -/
def digitVal (c : Char) : Nat := c.toNat - 48

/-- The `%M` directive of `datetime.strptime`, whose compiled regex is
the alternation `[0-5]\d|\d` (two digits with the first between `0` and
`5`, code 48 to 53, tried first, else one digit).  Because the character
after the minute part must be the non-digit `:`, committing to the
two-digit alternative never loses a parse that backtracking to the
one-digit alternative would find. -/
def matchMinute : List Char → Option (Nat × List Char)
  | c1 :: c2 :: rest =>
      if 48 ≤ c1.toNat ∧ c1.toNat ≤ 53 ∧ isDigitChar c2 then
        some (10 * digitVal c1 + digitVal c2, rest)
      else if isDigitChar c1 then some (digitVal c1, c2 :: rest)
      else none
  | [c1] => if isDigitChar c1 then some (digitVal c1, []) else none
  | [] => none

/-- The `%S` directive of `datetime.strptime`, whose compiled regex is
`6[0-1]|[0-5]\d|\d` (60 and 61 allow leap seconds).  As the match must
consume the whole remaining string, committing to a longer alternative
again loses nothing. -/
def matchSecond : List Char → Option (Nat × List Char)
  | c1 :: c2 :: rest =>
      if c1.toNat = 54 ∧ (c2.toNat = 48 ∨ c2.toNat = 49) then
        some (60 + digitVal c2, rest)
      else if 48 ≤ c1.toNat ∧ c1.toNat ≤ 53 ∧ isDigitChar c2 then
        some (10 * digitVal c1 + digitVal c2, rest)
      else if isDigitChar c1 then some (digitVal c1, c2 :: rest)
      else none
  | [c1] => if isDigitChar c1 then some (digitVal c1, []) else none
  | [] => none

/-- Finish the `%S` match: the regex match must consume the rest of the
string, and the `datetime` constructor then rejects a seconds value
above 59 (so the leap-second regex alternatives never survive). -/
def secondsFinish : Option (Nat × List Char) → Option Nat
  | some (sec, []) => if sec ≤ 59 then some sec else none
  | _ => none

/-- After the `%M` match: the next character must be the literal colon
(code 58), and the remainder must be consumed by `%S`. -/
def afterMinute : Option (Nat × List Char) → Option (Nat × Nat)
  | none => none
  | some (_, []) => none
  | some (m, c :: rest) =>
      if c.toNat = 58 then (secondsFinish (matchSecond rest)).map (fun sec => (m, sec))
      else none

/-- Embedding of `datetime.strptime(time_string, "%M:%S")` at the level
of character lists: match `%M`, a literal colon, `%S`, require the whole
string to be consumed, then build the `datetime`. -/
def parseMMSS (l : List Char) : Option (Nat × Nat) :=
  afterMinute (matchMinute l)

/-- Embedding of `convert_date_string_to_datetime`: parse the string
with `strptime("%M:%S")` and keep the `(minutes, seconds)` pair of the
resulting `timedelta`; `none` stands for the `ValueError` the spec calls
`TimeParseError`. -/
def convert_date_string_to_datetime (s : String) : Option (Nat × Nat) :=
  parseMMSS s.data

/-- Seconds of `timedelta(minutes=m, seconds=s)` (`.dt.seconds`). -/
def durationSeconds (d : Nat × Nat) : Nat := 60 * d.1 + d.2

/-- The derived `Minutes` column: `.dt.seconds / 60` with pandas true
division, modelled as an exact rational.  Written with `mkRat` so that
it evaluates; `minutesOf_eq_div` below states that it is exactly the
quotient of the total seconds by 60. -/
def minutesOf (d : Nat × Nat) : ℚ := mkRat (durationSeconds d) 60

/-- The language the parser actually accepts, stated by string shape as
in the amended claim: a one- or two-digit minute part of value at most
59, a colon, and a one- or two-digit seconds part of value at most 59. -/
def acceptedMMSS : List Char → Option (Nat × Nat)
  | [m1, c, s1] =>
      if isDigitChar m1 ∧ c.toNat = 58 ∧ isDigitChar s1 then
        some (digitVal m1, digitVal s1)
      else none
  | [a, b, c, d] =>
      if isDigitChar a ∧ b.toNat = 58 ∧ isDigitChar c ∧ isDigitChar d ∧
          10 * digitVal c + digitVal d ≤ 59 then
        some (digitVal a, 10 * digitVal c + digitVal d)
      else if isDigitChar a ∧ isDigitChar b ∧ 10 * digitVal a + digitVal b ≤ 59 ∧
          c.toNat = 58 ∧ isDigitChar d then
        some (10 * digitVal a + digitVal b, digitVal d)
      else none
  | [a, b, c, d, e] =>
      if isDigitChar a ∧ isDigitChar b ∧ 10 * digitVal a + digitVal b ≤ 59 ∧
          c.toNat = 58 ∧ isDigitChar d ∧ isDigitChar e ∧
          10 * digitVal d + digitVal e ≤ 59 then
        some (10 * digitVal a + digitVal b, 10 * digitVal d + digitVal e)
      else none
  | _ => none

/-- Characters removed by Python's `str.strip()`: space (code 32) and
the ASCII control whitespace codes 9 to 13. -/
def isPySpace (c : Char) : Bool := c.toNat = 32 || (9 ≤ c.toNat && c.toNat ≤ 13)

/-- Strip leading and trailing whitespace from a character list. -/
def stripChars (l : List Char) : List Char :=
  ((l.dropWhile isPySpace).reverse.dropWhile isPySpace).reverse

/-- Embedding of `cell_value.text.strip()`. -/
def pyStrip (s : String) : String := ⟨stripChars s.data⟩

/-- Embedding of the raw-data comprehension
`[[cell_value.text.strip() for cell_value in row.find_all('td')]
  for row in table.find_all('tr')]`
over the already-located table, given as its rows of cell texts. -/
def extract_raw_data (tableRows : List (List String)) : List Row :=
  tableRows.map (fun row => row.map pyStrip)

/-- A row of the per-year DataFrame after `d['Year'] = year`: the nine
cell strings plus the year tag. -/
structure RawRecord where
  fields : Row
  year : Int
  deriving DecidableEq, Repr

/-- One iteration body of the per-year loop: `d = parse_results_table(url)`
followed by `d['Year'] = year`, so the year is attached to every row of
the page before the append. -/
def build_page (year : Int) (rows : List Row) : Except PipelineError (List RawRecord) :=
  (parse_results_table rows).map (fun p => p.2.map (fun r => ⟨r, year⟩))

/-- Embedding of the accumulation loop

```
df = pd.DataFrame()
for year, url in zip(years, urls):
    d = parse_results_table(url)
    d['Year'] = year
    df = df.append(d)
```

over the pages' extracted rows, in the configured year order; the first
failing page aborts the run. -/
def build_dataset : List (Int × List Row) → Except PipelineError (List RawRecord)
  | [] => .ok []
  | (y, rows) :: rest =>
      match build_page y rows with
      | .error e => .error e
      | .ok d =>
          match build_dataset rest with
          | .error e => .error e
          | .ok tail => .ok (d ++ tail)

/-- Columns of the accumulated DataFrame: the header of the first
appended page (all pages of this site share the 9-column schema); label
access on an empty DataFrame raises `KeyError`. -/
def dataset_header : List (Int × List Row) → Except PipelineError Row
  | [] => .error .keyError
  | (_, rows) :: _ => (parse_results_table rows).map Prod.fst

/-- Numeric value of an ASCII digit list, most significant first. -/
def natFromDigits (l : List Char) : Nat := l.foldl (fun a c => 10 * a + digitVal c) 0

/-- Embedding of Python's `int()` applied to a string, as `astype(int)`
does per cell: optional surrounding whitespace, an optional sign, then
one or more ASCII digits; anything else raises the `ValueError` the spec
calls `TypeCoercionError`. -/
def py_int (s : String) : Option Int :=
  match stripChars s.data with
  | [] => none
  | c :: ds =>
      if c.toNat = 45 then
        if ds ≠ [] ∧ ds.all isDigitChar then some (-(natFromDigits ds : Int)) else none
      else if c.toNat = 43 then
        if ds ≠ [] ∧ ds.all isDigitChar then some (natFromDigits ds : Int) else none
      else if (c :: ds).all isDigitChar then some (natFromDigits (c :: ds) : Int)
      else none

/-- Label-based cell access `row[label]` under the DataFrame's columns:
find the label's position in the header and read that cell. -/
def getCol (header : Row) (label : String) (r : RawRecord) : Except PipelineError String :=
  match (header.findIdx? (· == label)).bind r.fields.get? with
  | none => .error .keyError
  | some v => .ok v

/-- A fully normalized record: the original nine cells, the year tag,
and the derived `Time` (duration), `Minutes`, and coerced integer
columns. -/
structure Record where
  fields : Row
  year : Int
  time : Nat × Nat
  minutes : ℚ
  place : Int
  age : Int
  bibNo : Int
  deriving DecidableEq, Repr

/-- Apply a per-row computation down a column, stopping at the first
failure, as `Series.apply` and `astype` do. -/
def colMapM {α : Type} (f : RawRecord → Except PipelineError α) :
    List RawRecord → Except PipelineError (List α)
  | [] => .ok []
  | r :: rs =>
      match f r with
      | .error e => .error e
      | .ok a =>
          match colMapM f rs with
          | .error e => .error e
          | .ok tail => .ok (a :: tail)

/-- Embedding of `df['Total Time'].apply(convert_date_string_to_datetime)`. -/
def parseTimeCol (header : Row) (rs : List RawRecord) :
    Except PipelineError (List (Nat × Nat)) :=
  colMapM (fun r =>
    match getCol header "Total Time" r with
    | .error e => .error e
    | .ok s =>
        match convert_date_string_to_datetime s with
        | none => .error .timeParse
        | some d => .ok d) rs

/-- Embedding of one column of `df[['Place','Age','Bib No']].astype(int)`. -/
def coerceIntCol (header : Row) (label : String) (rs : List RawRecord) :
    Except PipelineError (List Int) :=
  colMapM (fun r =>
    match getCol header label r with
    | .error e => .error e
    | .ok s =>
        match py_int s with
        | none => .error .typeCoercion
        | some n => .ok n) rs

/-- Reassemble the normalized columns into records, in row order. -/
def zipRecords : List RawRecord → List (Nat × Nat) → List Int → List Int → List Int →
    List Record
  | r :: rs, t :: ts, p :: ps, a :: ags, b :: bs =>
      { fields := r.fields, year := r.year, time := t,
        minutes := minutesOf t, place := p, age := a, bibNo := b } :: zipRecords rs ts ps ags bs
  | _, _, _, _, _ => []

/-- The time-normalization block of the notebook, column by column in
source order: the `Time` column, the derived `Minutes` column, then the
three `astype(int)` coercions. -/
def normalize_dataset (header : Row) (rs : List RawRecord) :
    Except PipelineError (List Record) :=
  match parseTimeCol header rs with
  | .error e => .error e
  | .ok ts =>
      match coerceIntCol header "Place" rs with
      | .error e => .error e
      | .ok ps =>
          match coerceIntCol header "Age" rs with
          | .error e => .error e
          | .ok ags =>
              match coerceIntCol header "Bib No" rs with
              | .error e => .error e
              | .ok bs => .ok (zipRecords rs ts ps ags bs)

/-- Insert a record into a list sorted ascending by duration. -/
def insertByTime (r : Record) : List Record → List Record
  | [] => [r]
  | x :: xs =>
      if durationSeconds r.time ≤ durationSeconds x.time then r :: x :: xs
      else x :: insertByTime r xs

/-- Embedding of `df.sort_values(by='Time')`: ascending by the parsed
duration.  On inputs whose durations are pairwise distinct this agrees
with pandas for any sorting algorithm; pandas' default quicksort leaves
the relative order of equal keys unspecified. -/
def sortByTime : List Record → List Record
  | [] => []
  | r :: rs => insertByTime r (sortByTime rs)

/-- The full pipeline from extracted rows to the sorted record list that
is serialized by `to_pickle`. -/
def run_pipeline (pages : List (Int × List Row)) : Except PipelineError (List Record) :=
  match build_dataset pages with
  | .error e => .error e
  | .ok raw =>
      match dataset_header pages with
      | .error e => .error e
      | .ok header =>
          match normalize_dataset header raw with
          | .error e => .error e
          | .ok recs => .ok (sortByTime recs)

/-- The Fetch→Extract→Clean→Build stage on raw table cell texts: strip
every cell, then clean and accumulate the per-year datasets. -/
def clean_build (pages : List (Int × List (List String))) :
    Except PipelineError (List RawRecord) :=
  build_dataset (pages.map (fun p => (p.1, extract_raw_data p.2)))

/-- The 9-column header row of the site's results tables. -/
def empireHeader : Row :=
  ["Place", "Name", "Team", "Bib No", "Age", "Gender", "Age Group", "Total Time", "Pace"]

/-- First data row of the 2015 women's table, as shown in the notebook. -/
def rowSciocchetti : Row :=
  ["1", "Alexandra Sciocchetti", "UNATTACHED", "189", "20", "F", "1/48 13-39", "20:20", "5:55/M"]

/-- Second data row of the 2015 women's table, as shown in the notebook. -/
def rowCarleton : Row :=
  ["2", "Tamma Carleton", "Strawberry Canyon TC", "114", "27", "F", "2/48 13-39", "20:23", "5:56/M"]

/-- The four extracted rows of the women's table: title, header, and the
two data rows. -/
def womensRaceRows : List Row :=
  [["Women's Race"], empireHeader, rowSciocchetti, rowCarleton]

/-- A record whose `place`, `age` and `bibNo` come from coercing the
row's `Place`, `Age` and `Bib No` cells with Python's `int()`. -/
def CoercedFrom (header : Row) (raw : RawRecord) (rec : Record) : Prop :=
  (∃ s, getCol header "Place" raw = .ok s ∧ py_int s = some rec.place) ∧
  (∃ s, getCol header "Age" raw = .ok s ∧ py_int s = some rec.age) ∧
  (∃ s, getCol header "Bib No" raw = .ok s ∧ py_int s = some rec.bibNo)

/-- A data row holding non-numeric content "XX" in its `Age` cell. -/
def rowBadAge : Row :=
  ["1", "Alexandra Sciocchetti", "UNATTACHED", "189", "XX", "F", "1/48 13-39", "20:20", "5:55/M"]

/-- The Sciocchetti record as produced by the pipeline for year 2015. -/
def recSciocchetti : Record :=
  ⟨rowSciocchetti, 2015, (20, 20), minutesOf (20, 20), 1, 20, 189⟩

/-- The Carleton record as produced by the pipeline for year 2015. -/
def recCarleton : Record :=
  ⟨rowCarleton, 2015, (20, 23), minutesOf (20, 23), 2, 27, 114⟩

/-- The cleaning loop is the order-preserving filter of the input. -/
theorem cleanLoop_eq_filter (header : Row) (rows : List Row) :
    cleanLoop header rows = rows.filter (fun r => decide (r ≠ header) && (r.length == 9)) := by
  suffices h : ∀ acc, rows.foldl
      (fun acc row => if row ≠ header ∧ row.length = 9 then acc ++ [row] else acc) acc =
      acc ++ rows.filter (fun r => decide (r ≠ header) && (r.length == 9)) by
    simpa [cleanLoop] using h []
  induction rows with
  | nil => intro acc; simp
  | cons r rs ih =>
      intro acc
      by_cases hr : r ≠ header ∧ r.length = 9
      · simp [List.foldl_cons, hr, ih, List.filter_cons,
          decide_eq_true hr.1, hr.2]
      · rw [List.foldl_cons, if_neg hr, ih, List.filter_cons]
        have hfalse : (decide (r ≠ header) && (r.length == 9)) = false := by
          rcases Decidable.not_and_iff_or_not.mp hr with h1 | h2
          · simp [Decidable.not_not.mp h1]
          · simp [h2]
        rw [hfalse]
        simp

/-- When `findHeader` succeeds, the returned row has length 9 and is the
first such row: everything before it in the input has a different length. -/
theorem findHeader_first {rows : List Row} {h : Row} (hf : findHeader rows = some h) :
    h.length = 9 ∧ ∃ pre post, rows = pre ++ h :: post ∧ ∀ r ∈ pre, r.length ≠ 9 := by
  induction rows with
  | nil => simp [findHeader] at hf
  | cons r rs ih =>
      by_cases hr : r.length = 9
      · have : findHeader (r :: rs) = some r := by
          simp [findHeader, List.filter_cons, hr]
        rw [this] at hf
        cases hf
        exact ⟨hr, [], rs, rfl, by simp⟩
      · have : findHeader (r :: rs) = findHeader rs := by
          simp [findHeader, List.filter_cons, hr]
        rw [this] at hf
        obtain ⟨hlen, pre, post, heq, hpre⟩ := ih hf
        refine ⟨hlen, r :: pre, post, by simp [heq], ?_⟩
        intro x hx
        rcases List.mem_cons.mp hx with rfl | hx
        · exact hr
        · exact hpre x hx

/-- When some row has length 9, `findHeader` succeeds. -/
theorem findHeader_isSome {rows : List Row} (hex : ∃ r ∈ rows, r.length = 9) :
    ∃ h, findHeader rows = some h := by
  obtain ⟨r, hmem, hlen⟩ := hex
  have : r ∈ rows.filter (fun r => r.length == 9) :=
    List.mem_filter.mpr ⟨hmem, by simp [hlen]⟩
  rcases hfl : rows.filter (fun r => r.length == 9) with _ | ⟨a, l⟩
  · rw [hfl] at this; simp at this
  · exact ⟨a, by simp [findHeader, hfl]⟩

/-- C1: when the input contains a row of length 9, `parse_results_table`
takes `header` to be the first row of length 9 and returns exactly, in
original order, the rows of length 9 that are not element-wise equal to
`header`; in particular the header itself and every row shorter than 9
are absent from the cleaned output. -/
theorem cleaner_keeps_exactly_non_header_9 (rows : List Row)
    (hex : ∃ r ∈ rows, r.length = 9) :
    ∃ header cleaned,
      parse_results_table rows = .ok (header, cleaned) ∧
      header.length = 9 ∧
      (∃ pre post, rows = pre ++ header :: post ∧ ∀ r ∈ pre, r.length ≠ 9) ∧
      cleaned = rows.filter (fun r => decide (r ≠ header) && (r.length == 9)) ∧
      header ∉ cleaned ∧
      (∀ r, r.length < 9 → r ∉ cleaned) := by
  obtain ⟨header, hf⟩ := findHeader_isSome hex
  obtain ⟨hlen, hfirst⟩ := findHeader_first hf
  refine ⟨header, cleanLoop header rows, ?_, hlen, hfirst, cleanLoop_eq_filter header rows, ?_, ?_⟩
  · simp [parse_results_table, hf]
  · rw [cleanLoop_eq_filter]
    intro hmem
    have := (List.mem_filter.mp hmem).2
    simp at this
  · intro r hr hmem
    rw [cleanLoop_eq_filter] at hmem
    have := (List.mem_filter.mp hmem).2
    simp at this
    omega

/-- C1 witness: the property instantiated on a concrete three-row table
with a title row, a header row and one data row. -/
theorem cleaner_keeps_exactly_non_header_9_witness :
    ∃ header cleaned,
      parse_results_table [["t"], ["a","b","c","d","e","f","g","h","i"],
        ["1","n","t","9","20","F","g","20:20","p"]] = .ok (header, cleaned) ∧
      header.length = 9 ∧
      (∃ pre post, [["t"], ["a","b","c","d","e","f","g","h","i"],
        ["1","n","t","9","20","F","g","20:20","p"]] = pre ++ header :: post ∧
        ∀ r ∈ pre, r.length ≠ 9) ∧
      cleaned = [["t"], ["a","b","c","d","e","f","g","h","i"],
        ["1","n","t","9","20","F","g","20:20","p"]].filter
          (fun r => decide (r ≠ header) && (r.length == 9)) ∧
      header ∉ cleaned ∧
      (∀ r, r.length < 9 → r ∉ cleaned) :=
  cleaner_keeps_exactly_non_header_9 _
    ⟨["a","b","c","d","e","f","g","h","i"], by simp, by simp⟩

/-- C5: when no row has length 9, the cleaner fails with
`HeaderNotFoundError` and produces no cleaned output. -/
theorem cleaner_fails_without_header (rows : List Row)
    (hnone : ∀ r ∈ rows, r.length ≠ 9) :
    parse_results_table rows = .error .headerNotFound := by
  have : rows.filter (fun r => r.length == 9) = [] := by
    rw [List.filter_eq_nil_iff]
    intro r hr
    simp [hnone r hr]
  simp [parse_results_table, findHeader, this]

/-- C5 witness: a title-only input fails with `HeaderNotFoundError`. -/
theorem cleaner_fails_without_header_witness :
    parse_results_table [["Women's Race"], ["a", "b"]] = .error .headerNotFound :=
  cleaner_fails_without_header _ (by decide)

/-- C10: every row in the cleaned output has length exactly 9, so rows
longer than 9 are discarded just like the shorter title rows. -/
theorem cleaner_output_length_eq_9 (rows : List Row) (header : Row) (cleaned : List Row)
    (hok : parse_results_table rows = .ok (header, cleaned)) :
    ∀ r ∈ cleaned, r.length = 9 := by
  intro r hmem
  rcases hf : findHeader rows with _ | h
  · simp [parse_results_table, hf] at hok
  · simp [parse_results_table, hf] at hok
    obtain ⟨-, hcl⟩ := hok
    rw [← hcl, cleanLoop_eq_filter] at hmem
    have := (List.mem_filter.mp hmem).2
    simp at this
    exact this.2

/-- C10 witness: on an input with a 10-cell row, the cleaned output keeps
only rows of length 9. -/
theorem cleaner_output_length_eq_9_witness :
    (∀ r ∈ [["1","n","t","9","20","F","g","20:20","p"]], r.length = 9) ∧
    parse_results_table [["a","b","c","d","e","f","g","h","i"],
        ["1","n","t","9","20","F","g","20:20","p"],
        ["0","1","2","3","4","5","6","7","8","9"]] =
      .ok (["a","b","c","d","e","f","g","h","i"],
        [["1","n","t","9","20","F","g","20:20","p"]]) :=
  ⟨cleaner_output_length_eq_9
      [["a","b","c","d","e","f","g","h","i"],
        ["1","n","t","9","20","F","g","20:20","p"],
        ["0","1","2","3","4","5","6","7","8","9"]]
      ["a","b","c","d","e","f","g","h","i"]
      [["1","n","t","9","20","F","g","20:20","p"]] (by rfl), by rfl⟩

/-- C2 counterexample: the parser rejects the three-digit minute part
"104:32" that the claim requires it to accept, and it accepts the
single-digit seconds part "16:5" that the claim requires it to reject. -/
theorem time_parser_counterexample :
    convert_date_string_to_datetime "104:32" = none ∧
    convert_date_string_to_datetime "16:5" = some (16, 5) := by
  constructor <;> rfl

/-- Unfolding equation of `secondsFinish` at a fully consumed match. -/
theorem secondsFinish_some_nil (sec : Nat) :
    secondsFinish (some (sec, [])) = if sec ≤ 59 then some sec else none := rfl

/-- Unfolding equation of `secondsFinish` with characters left over. -/
theorem secondsFinish_some_cons (sec : Nat) (c : Char) (r : List Char) :
    secondsFinish (some (sec, c :: r)) = none := rfl

/-- Unfolding equation of `secondsFinish` on a failed match. -/
theorem secondsFinish_none : secondsFinish none = none := rfl

/-- Unfolding equation of `afterMinute` on a failed match. -/
theorem afterMinute_none : afterMinute none = none := rfl

/-- Unfolding equation of `afterMinute` at the end of the string. -/
theorem afterMinute_some_nil (m : Nat) : afterMinute (some (m, [])) = none := rfl

/-- Unfolding equation of `afterMinute` at a remaining character. -/
theorem afterMinute_some_cons (m : Nat) (c : Char) (rest : List Char) :
    afterMinute (some (m, c :: rest)) =
      if c.toNat = 58 then (secondsFinish (matchSecond rest)).map (fun sec => (m, sec))
      else none := rfl

/-- C2 amended: the Time Normalizer parses exactly the strings made of a
one- or two-digit minute part of value at most 59, a colon, and a one-
or two-digit seconds part of value at most 59, returning the
`(minutes, seconds)` pair, and fails on every other string — in
particular on three-digit minute parts such as "104:32". -/
theorem time_parser_language (s : String) :
    convert_date_string_to_datetime s = acceptedMMSS s.data := by
  rw [convert_date_string_to_datetime]
  rcases s.data with _ | ⟨c1, _ | ⟨c2, _ | ⟨c3, _ | ⟨c4, _ | ⟨c5, _ | ⟨c6, rest⟩⟩⟩⟩⟩⟩ <;>
    · simp only [parseMMSS, matchMinute, acceptedMMSS, isDigitChar, digitVal,
        Bool.and_eq_true, decide_eq_true_eq]
      repeat
        first
        | rfl
        | omega
        | split_ifs
        | (exfalso; omega)
        | simp only [afterMinute_none, afterMinute_some_nil, afterMinute_some_cons,
            secondsFinish_none, secondsFinish_some_nil, secondsFinish_some_cons,
            matchSecond, isDigitChar, digitVal, Bool.and_eq_true, decide_eq_true_eq,
            Option.map_some', Option.map_none', Option.some.injEq, Prod.mk.injEq]

/-- The `Minutes` value is exactly total seconds divided by 60. -/
theorem minutesOf_eq_div (d : Nat × Nat) :
    minutesOf d = (durationSeconds d : ℚ) / 60 := by
  rw [minutesOf, Rat.mkRat_eq_divInt, Rat.divInt_eq_div]
  push_cast
  ring

/-- Every record assembled by `zipRecords` carries as `minutes` the
`Minutes` value derived from its own `time`. -/
theorem zipRecords_minutes (rs : List RawRecord) :
    ∀ ts ps ags bs, ∀ r ∈ zipRecords rs ts ps ags bs, r.minutes = minutesOf r.time := by
  induction rs with
  | nil => intro ts ps ags bs r hr; simp [zipRecords] at hr
  | cons x xs ih =>
      intro ts ps ags bs r hr
      rcases ts with _ | ⟨t, ts⟩
      · simp [zipRecords] at hr
      rcases ps with _ | ⟨p, ps⟩
      · simp [zipRecords] at hr
      rcases ags with _ | ⟨a, ags⟩
      · simp [zipRecords] at hr
      rcases bs with _ | ⟨b, bs⟩
      · simp [zipRecords] at hr
      rw [zipRecords] at hr
      rcases List.mem_cons.mp hr with hEq | hMem
      · rw [hEq]
      · exact ih ts ps ags bs r hMem

/-- C3: in every successfully normalized dataset, each record's
`Minutes` equals its duration's total seconds divided by 60, and for the
`Total Time` string "16:51" the parsed duration yields exactly 16.85
minutes. -/
theorem minutes_from_duration (header : Row) (rs : List RawRecord) (recs : List Record)
    (h : normalize_dataset header rs = .ok recs) :
    (∀ r ∈ recs, r.minutes = (durationSeconds r.time : ℚ) / 60) ∧
    convert_date_string_to_datetime "16:51" = some (16, 51) ∧
    minutesOf (16, 51) = 16.85 := by
  refine ⟨?_, by rfl, by rw [minutesOf_eq_div]; norm_num [durationSeconds]⟩
  unfold normalize_dataset at h
  cases h1 : parseTimeCol header rs with
  | error e => rw [h1] at h; simp at h
  | ok ts =>
      rw [h1] at h
      cases h2 : coerceIntCol header "Place" rs with
      | error e => rw [h2] at h; simp at h
      | ok ps =>
          rw [h2] at h
          cases h3 : coerceIntCol header "Age" rs with
          | error e => rw [h3] at h; simp at h
          | ok ags =>
              rw [h3] at h
              cases h4 : coerceIntCol header "Bib No" rs with
              | error e => rw [h4] at h; simp at h
              | ok bs =>
                  rw [h4] at h
                  simp only [Except.ok.injEq] at h
                  subst h
                  intro r hr
                  rw [zipRecords_minutes rs ts ps ags bs r hr, minutesOf_eq_div]

/-- C3 witness: the normalization of the single Sciocchetti row. -/
theorem minutes_from_duration_witness :
    (∀ r ∈ ([⟨rowSciocchetti, 2015, (20, 20), minutesOf (20, 20), 1, 20, 189⟩] : List Record),
        r.minutes = (durationSeconds r.time : ℚ) / 60) ∧
    convert_date_string_to_datetime "16:51" = some (16, 51) ∧
    minutesOf (16, 51) = 16.85 :=
  minutes_from_duration empireHeader [⟨rowSciocchetti, 2015⟩]
    [⟨rowSciocchetti, 2015, (20, 20), minutesOf (20, 20), 1, 20, 189⟩] (by decide)

/-- C7: the combined dataset is the concatenation, in configured year
order, of the per-year cleaned datasets, and the year tag is attached to
every record of a page before it is appended. -/
theorem frame_builder_concat (pages : List (Int × List Row)) (ds : List (List RawRecord))
    (h : List.Forall₂ (fun p d => build_page p.1 p.2 = .ok d) pages ds) :
    build_dataset pages = .ok ds.flatten ∧
    ∀ y rows recs, build_page y rows = .ok recs → ∀ r ∈ recs, r.year = y := by
  constructor
  · induction h with
    | nil => simp [build_dataset]
    | @cons p d ps ds' hpd htail ih =>
        obtain ⟨y, rows⟩ := p
        simp only [build_dataset, hpd, ih, List.flatten_cons]
  · intro y rows recs hok r hr
    unfold build_page at hok
    cases hp : parse_results_table rows with
    | error e => rw [hp] at hok; simp [Except.map] at hok
    | ok pr =>
        rw [hp] at hok
        simp only [Except.map, Except.ok.injEq] at hok
        subst hok
        obtain ⟨row, -, hrow⟩ := List.mem_map.mp hr
        rw [← hrow]

/-- C7 witness: two configured years over the women's table. -/
theorem frame_builder_concat_witness :
    (build_dataset [((2015 : Int), womensRaceRows), ((2016 : Int), womensRaceRows)] =
      .ok ([[⟨rowSciocchetti, 2015⟩, ⟨rowCarleton, 2015⟩],
            [⟨rowSciocchetti, 2016⟩, ⟨rowCarleton, 2016⟩]] : List (List RawRecord)).flatten) ∧
    ∀ y rows recs, build_page y rows = .ok recs → ∀ r ∈ recs, r.year = y :=
  frame_builder_concat _ _
    (List.Forall₂.cons (by rfl) (List.Forall₂.cons (by rfl) List.Forall₂.nil))

/-- Inversion of a successful column computation at a cons cell. -/
theorem colMapM_cons_ok {α : Type} {f : RawRecord → Except PipelineError α}
    {r : RawRecord} {rs : List RawRecord} {l : List α}
    (h : colMapM f (r :: rs) = .ok l) :
    ∃ a tail, f r = .ok a ∧ colMapM f rs = .ok tail ∧ l = a :: tail := by
  unfold colMapM at h
  cases hf : f r with
  | error e => rw [hf] at h; simp at h
  | ok a =>
      rw [hf] at h
      cases ht : colMapM f rs with
      | error e => rw [ht] at h; simp at h
      | ok tail =>
          rw [ht] at h
          simp only [Except.ok.injEq] at h
          exact ⟨a, tail, rfl, rfl, h.symm⟩

/-- A column computation that can succeed on every row succeeds. -/
theorem colMapM_ok_of_forall {α : Type} {f : RawRecord → Except PipelineError α} :
    ∀ {rs : List RawRecord}, (∀ r ∈ rs, ∃ a, f r = .ok a) →
      ∃ l, colMapM f rs = .ok l := by
  intro rs
  induction rs with
  | nil => intro _; exact ⟨[], rfl⟩
  | cons r rs ih =>
      intro hall
      obtain ⟨a, ha⟩ := hall r (by simp)
      obtain ⟨tail, htail⟩ := ih (fun x hx => hall x (by simp [hx]))
      exact ⟨a :: tail, by simp [colMapM, ha, htail]⟩

/-- A column computation whose rows either fail with `e` or succeed, and
which contains at least one failing row, fails with `e`. -/
theorem colMapM_error_of_exists {α : Type} {f : RawRecord → Except PipelineError α}
    {e : PipelineError} :
    ∀ {rs : List RawRecord}, (∀ r ∈ rs, f r = .error e ∨ ∃ a, f r = .ok a) →
      (∃ r ∈ rs, f r = .error e) → colMapM f rs = .error e := by
  intro rs
  induction rs with
  | nil => intro _ hex; simp at hex
  | cons r rs ih =>
      intro hall hex
      cases hf : f r with
      | error e' =>
          have : e' = e := by
            rcases hall r (by simp) with h | ⟨a, ha⟩
            · rw [hf] at h; exact (Except.error.injEq _ _).mp h
            · rw [hf] at ha; simp at ha
          subst this
          simp [colMapM, hf]
      | ok a =>
          have hex' : ∃ r' ∈ rs, f r' = .error e := by
            obtain ⟨r0, hr0, hfr0⟩ := hex
            rcases List.mem_cons.mp hr0 with rfl | hmem
            · rw [hf] at hfr0; simp at hfr0
            · exact ⟨r0, hmem, hfr0⟩
          have := ih (fun x hx => hall x (by simp [hx])) hex'
          simp [colMapM, hf, this]

/-- Success of all four columns makes `zipRecords` coerce each record's
integer fields from its own row. -/
theorem zipRecords_coerced {header : Row} :
    ∀ (rs : List RawRecord) (ts : List (Nat × Nat)) (ps ags bs : List Int),
      parseTimeCol header rs = .ok ts →
      coerceIntCol header "Place" rs = .ok ps →
      coerceIntCol header "Age" rs = .ok ags →
      coerceIntCol header "Bib No" rs = .ok bs →
      List.Forall₂ (CoercedFrom header) rs (zipRecords rs ts ps ags bs) := by
  intro rs
  induction rs with
  | nil => intro ts ps ags bs _ _ _ _; simp [zipRecords]
  | cons r rs ih =>
      intro ts ps ags bs ht hp ha hb
      obtain ⟨t, ts', hft, hts', rfl⟩ := colMapM_cons_ok ht
      obtain ⟨p, ps', hfp, hps', rfl⟩ := colMapM_cons_ok hp
      obtain ⟨a, ags', hfa, hags', rfl⟩ := colMapM_cons_ok ha
      obtain ⟨b, bs', hfb, hbs', rfl⟩ := colMapM_cons_ok hb
      rw [zipRecords]
      refine List.Forall₂.cons ?_ (ih ts' ps' ags' bs' hts' hps' hags' hbs')
      refine ⟨?_, ?_, ?_⟩
      · cases hg : getCol header "Place" r with
        | error e => simp [hg] at hfp
        | ok s =>
            cases hi : py_int s with
            | none => simp [hg, hi] at hfp
            | some n =>
                simp [hg, hi] at hfp
                exact ⟨s, rfl, by simp [hi, hfp]⟩
      · cases hg : getCol header "Age" r with
        | error e => simp [hg] at hfa
        | ok s =>
            cases hi : py_int s with
            | none => simp [hg, hi] at hfa
            | some n =>
                simp [hg, hi] at hfa
                exact ⟨s, rfl, by simp [hi, hfa]⟩
      · cases hg : getCol header "Bib No" r with
        | error e => simp [hg] at hfb
        | ok s =>
            cases hi : py_int s with
            | none => simp [hg, hi] at hfb
            | some n =>
                simp [hg, hi] at hfb
                exact ⟨s, rfl, by simp [hi, hfb]⟩

/-- C8: when every row's `Place`, `Age` and `Bib No` cells exist and all
`Total Time` cells parse, normalization coerces each record's `Place`,
`Age` and `Bib No` from its row's strings via `int()`, and it fails with
`TypeCoercionError` whenever any of those cells holds non-numeric
content. -/
theorem int_coercion (header : Row) (rs : List RawRecord)
    (hcols : ∀ r ∈ rs, ∀ lbl ∈ ["Place", "Age", "Bib No"], ∃ s, getCol header lbl r = .ok s)
    (hts : ∃ ts, parseTimeCol header rs = .ok ts) :
    (∀ recs, normalize_dataset header rs = .ok recs →
        List.Forall₂ (CoercedFrom header) rs recs) ∧
    ((∃ r ∈ rs, ∃ lbl ∈ ["Place", "Age", "Bib No"], ∃ s,
        getCol header lbl r = .ok s ∧ py_int s = none) →
      normalize_dataset header rs = .error .typeCoercion) := by
  obtain ⟨ts, hts⟩ := hts
  constructor
  · intro recs hok
    unfold normalize_dataset at hok
    rw [hts] at hok
    cases h2 : coerceIntCol header "Place" rs with
    | error e => simp [h2] at hok
    | ok ps =>
        simp only [h2] at hok
        cases h3 : coerceIntCol header "Age" rs with
        | error e => simp [h3] at hok
        | ok ags =>
            simp only [h3] at hok
            cases h4 : coerceIntCol header "Bib No" rs with
            | error e => simp [h4] at hok
            | ok bs =>
                simp only [h4, Except.ok.injEq] at hok
                subst hok
                exact zipRecords_coerced rs ts ps ags bs hts h2 h3 h4
  · intro hbad
    by_cases hPbad : ∃ r ∈ rs, ∃ s, getCol header "Place" r = .ok s ∧ py_int s = none
    · have hperr : coerceIntCol header "Place" rs = .error .typeCoercion := by
        apply colMapM_error_of_exists
        · intro r hr
          obtain ⟨s, hg⟩ := hcols r hr "Place" (by simp)
          cases hi : py_int s with
          | none => exact Or.inl (by simp [hg, hi])
          | some n => exact Or.inr ⟨n, by simp [hg, hi]⟩
        · obtain ⟨r, hr, s, hg, hpy⟩ := hPbad
          exact ⟨r, hr, by simp [hg, hpy]⟩
      unfold normalize_dataset
      rw [hts, hperr]
    · have hPok : ∃ ps, coerceIntCol header "Place" rs = .ok ps := by
        apply colMapM_ok_of_forall
        intro r hr
        obtain ⟨s, hg⟩ := hcols r hr "Place" (by simp)
        cases hi : py_int s with
        | none => exact absurd ⟨r, hr, s, hg, hi⟩ hPbad
        | some n => exact ⟨n, by simp [hg, hi]⟩
      obtain ⟨ps, hPok⟩ := hPok
      by_cases hAbad : ∃ r ∈ rs, ∃ s, getCol header "Age" r = .ok s ∧ py_int s = none
      · have haerr : coerceIntCol header "Age" rs = .error .typeCoercion := by
          apply colMapM_error_of_exists
          · intro r hr
            obtain ⟨s, hg⟩ := hcols r hr "Age" (by simp)
            cases hi : py_int s with
            | none => exact Or.inl (by simp [hg, hi])
            | some n => exact Or.inr ⟨n, by simp [hg, hi]⟩
          · obtain ⟨r, hr, s, hg, hpy⟩ := hAbad
            exact ⟨r, hr, by simp [hg, hpy]⟩
        unfold normalize_dataset
        rw [hts, hPok, haerr]
      · have hAok : ∃ ags, coerceIntCol header "Age" rs = .ok ags := by
          apply colMapM_ok_of_forall
          intro r hr
          obtain ⟨s, hg⟩ := hcols r hr "Age" (by simp)
          cases hi : py_int s with
          | none => exact absurd ⟨r, hr, s, hg, hi⟩ hAbad
          | some n => exact ⟨n, by simp [hg, hi]⟩
        obtain ⟨ags, hAok⟩ := hAok
        by_cases hBbad : ∃ r ∈ rs, ∃ s, getCol header "Bib No" r = .ok s ∧ py_int s = none
        · have hberr : coerceIntCol header "Bib No" rs = .error .typeCoercion := by
            apply colMapM_error_of_exists
            · intro r hr
              obtain ⟨s, hg⟩ := hcols r hr "Bib No" (by simp)
              cases hi : py_int s with
              | none => exact Or.inl (by simp [hg, hi])
              | some n => exact Or.inr ⟨n, by simp [hg, hi]⟩
            · obtain ⟨r, hr, s, hg, hpy⟩ := hBbad
              exact ⟨r, hr, by simp [hg, hpy]⟩
          unfold normalize_dataset
          rw [hts, hPok, hAok, hberr]
        · exfalso
          obtain ⟨r, hr, lbl, hlbl, s, hg, hpy⟩ := hbad
          simp only [List.mem_cons, List.mem_singleton, List.not_mem_nil, or_false] at hlbl
          rcases hlbl with rfl | rfl | rfl
          · exact hPbad ⟨r, hr, s, hg, hpy⟩
          · exact hAbad ⟨r, hr, s, hg, hpy⟩
          · exact hBbad ⟨r, hr, s, hg, hpy⟩

/-- C8 witness: a single row whose `Age` cell is the non-numeric "XX". -/
theorem int_coercion_witness :
    normalize_dataset empireHeader [⟨rowBadAge, 2015⟩] = .error .typeCoercion :=
  (int_coercion empireHeader [⟨rowBadAge, 2015⟩]
      (by
        intro r hr lbl hl
        simp only [List.mem_singleton] at hr
        subst hr
        fin_cases hl
        · exact ⟨"1", rfl⟩
        · exact ⟨"XX", rfl⟩
        · exact ⟨"189", rfl⟩)
      ⟨[(20, 20)], by decide⟩).2
    ⟨⟨rowBadAge, 2015⟩, by simp, "Age", by simp, "XX", rfl, rfl⟩

/-- C9: the Fetch→Extract→Clean→Build stage is a pure function of the
extracted cell texts, so identical inputs produce identical cleaned
datasets. -/
theorem clean_build_deterministic (a b : List (Int × List (List String))) (h : a = b) :
    clean_build a = clean_build b := by rw [h]

/-- C9 witness: two runs on the same concrete page agree. -/
theorem clean_build_deterministic_witness :
    clean_build [((2015 : Int), [["Women's Race"], [" 1 ", "x"]])] =
      clean_build [((2015 : Int), [["Women's Race"], [" 1 ", "x"]])] :=
  clean_build_deterministic _ _ rfl

/-- C6: the full pipeline on the four-row women's table with year 2015
produces exactly the two records, both tagged 2015, with `Minutes`
exactly 61/3 and 1223/60 — which print as 20.333333 and 20.383333 at six
decimals — sorted with Sciocchetti's record first. -/
theorem end_to_end_womens_2015 :
    run_pipeline [((2015 : Int), womensRaceRows)] = .ok [recSciocchetti, recCarleton] ∧
    recSciocchetti.year = 2015 ∧ recCarleton.year = 2015 ∧
    recSciocchetti.minutes = 61 / 3 ∧ recCarleton.minutes = 1223 / 60 ∧
    ⌊recSciocchetti.minutes * 1000000 + 1 / 2⌋ = 20333333 ∧
    ⌊recCarleton.minutes * 1000000 + 1 / 2⌋ = 20383333 := by
  refine ⟨by decide, rfl, rfl, ?_, ?_, ?_, ?_⟩
  · show minutesOf (20, 20) = 61 / 3
    rw [minutesOf_eq_div]; norm_num [durationSeconds]
  · show minutesOf (20, 23) = 1223 / 60
    rw [minutesOf_eq_div]; norm_num [durationSeconds]
  · show ⌊minutesOf (20, 20) * 1000000 + 1 / 2⌋ = (20333333 : ℤ)
    rw [minutesOf_eq_div]
    rw [show ((durationSeconds (20, 20) : ℚ) / 60 * 1000000 + 1 / 2 : ℚ) = 122000003 / 6 by
      norm_num [durationSeconds]]
    rw [Int.floor_eq_iff]
    norm_num
  · show ⌊minutesOf (20, 23) * 1000000 + 1 / 2⌋ = (20383333 : ℤ)
    rw [minutesOf_eq_div]
    rw [show ((durationSeconds (20, 23) : ℚ) / 60 * 1000000 + 1 / 2 : ℚ) = 122300003 / 6 by
      norm_num [durationSeconds]]
    rw [Int.floor_eq_iff]
    norm_num

end RaceResults
